import Mathlib

/-!
Verification development for the SEO internal-link finder repository.

The repository holds three Python scripts sharing one crawl-and-match core:

* `internal_link_finder.py` (namespace `ILF` below) — Colab script, link
  mode: fetch every sitemap page and collect `(source url, anchor text)`
  pairs for each anchor inside the page's `<article>` whose resolved href
  equals a target URL.  Page ceiling `MAX_PAGES = 500`.
* `internal_links_mapper.py` (namespace `ILM`) — same link-mode core with
  logging and a `found_any` flag; page ceiling `MAX_PAGES = 1000`.
* `link_finder_streamlit.py` (namespace `LF`) — keyword mode: for a single
  target URL, skip pages whose article paragraphs already hold a
  root-relative link resolving to the target, otherwise scan the
  concatenated paragraph text for keyword-bearing sentences.

The embedding is shallow: HTTP traffic is an oracle mapping each URL to a
fetch outcome (`exn` stands for any exception raised inside the `try`
block — timeout, connection error, etc.); HTML is pre-parsed into the
element lists the scripts actually read (BeautifulSoup raises nothing for
malformed HTML, so parsing itself never fails).  The concurrent worker
pools are modelled sequentially in input order: completion order only
permutes which page is merged first, and every property below is
insensitive to that order.  Strings are modelled over their character
lists; the scope is ASCII text, http(s) URLs, and keywords that are
nonempty and free of sentence terminators, which covers every claim.
-/

/-! ## Shared string and URL helpers (`urllib.parse` fragments used by the scripts) -/

/-- Bool test that `pat` is an initial segment of `l` (character lists). -/
def startsWithChars : List Char → List Char → Bool
  | [], _ => true
  | _ :: _, [] => false
  | p :: ps, c :: cs => p == c && startsWithChars ps cs

/-- String-level wrapper of `startsWithChars`. -/
def strStartsWith (s pat : String) : Bool :=
  startsWithChars pat.data s.data

/-- Split a URL's character list at the first `://`, returning
(scheme chars, remainder) when present. -/
def splitSchemeAux (acc : List Char) : List Char → Option (List Char × List Char)
  | [] => none
  | ':' :: '/' :: '/' :: rest => some (acc.reverse, rest)
  | c :: cs => splitSchemeAux (c :: acc) cs

/-- Scheme of a URL (`urlparse(url).scheme` for the http(s) URLs in scope). -/
def schemeOf (url : String) : String :=
  match splitSchemeAux [] url.data with
  | some (sch, _) => String.mk sch
  | none => url

/-- `scheme://netloc` of a URL, as built by the scripts via
`f"{parsed.scheme}://{parsed.netloc}"`. -/
def schemeHost (url : String) : String :=
  match splitSchemeAux [] url.data with
  | some (sch, rest) =>
      String.mk (sch ++ [':', '/', '/'] ++ rest.takeWhile (fun c => c != '/'))
  | none => url

/-- Directory part of a URL used as a base for path-relative hrefs: the URL
up to and including the last `/` of its path (the whole host plus `/` when
the path is empty). -/
def dirOf (url : String) : String :=
  match splitSchemeAux [] url.data with
  | some (sch, rest) =>
      let host := rest.takeWhile (fun c => c != '/')
      let path := rest.dropWhile (fun c => c != '/')
      let kept := (path.reverse.dropWhile (fun c => c != '/')).reverse
      String.mk (sch ++ [':', '/', '/'] ++ host ++ (if kept.isEmpty then ['/'] else kept))
  | none => url

/-- Model of `urllib.parse.urljoin` for the href shapes arising in these
pages: empty hrefs (BeautifulSoup's `link.get('href', '')` default) resolve
to the base, absolute http(s) hrefs pass through, `//`-prefixed hrefs take
the base scheme, `/`-prefixed hrefs are root-relative, and anything else is
joined onto the base directory.  Dot-segment and query-string merging are
out of scope. -/
def urljoin (base href : String) : String :=
  if href = "" then base
  else if strStartsWith href "http://" || strStartsWith href "https://" then href
  else if strStartsWith href "//" then schemeOf base ++ ":" ++ href
  else if strStartsWith href "/" then schemeHost base ++ href
  else dirOf base ++ href

/-! ## Keyword matching (`link_finder_streamlit.find_keywords_in_text`)

The script compiles `keyword_regex = re.compile(r'\b' + re.escape(keyword)
+ r'\b', re.IGNORECASE)` and then runs `re.findall(r'[^.!?]*' +
keyword_regex.pattern + r'[^.!?]*[.!?]', text, flags=re.IGNORECASE)`.
Because the two `[^.!?]*` stars cannot cross a sentence terminator and the
final `[.!?]` consumes exactly one terminator, the non-overlapping leftmost
matches of findall are exactly the terminator-ended chunks of `text` whose
content holds at least one whole-word case-insensitive occurrence of the
keyword; text after the last terminator is never matched.  The definitions
below implement that operational reading; word boundaries (`\b`) are the
usual word/non-word transitions. -/

/-- `\w` for the ASCII texts in scope: letters, digits, underscore. -/
def isWordChar (c : Char) : Bool := c.isAlphanum || c == '_'

/-- Word-character test lifted to a possibly missing neighbour character
(positions before the start / after the end of the text are non-word). -/
def isWordOpt : Option Char → Bool
  | none => false
  | some c => isWordChar c

/-- Case-insensitive character equality (re.IGNORECASE, ASCII scope). -/
def lowerEq (a b : Char) : Bool := a.toLower == b.toLower

/-- Case-insensitive test that the keyword characters are an initial
segment of the text slice. -/
def matchesCIAt : List Char → List Char → Bool
  | [], _ => true
  | _ :: _, [] => false
  | k :: ks, c :: cs => lowerEq k c && matchesCIAt ks cs

/-- Whole-word occurrence of `kw` starting at the head of `l`, where `prev`
is the character just before that position: the keyword matches
case-insensitively and both ends sit on a `\b` word boundary. -/
def wordOccursHere (kw : List Char) (prev : Option Char) (l : List Char) : Bool :=
  matchesCIAt kw l
    && (isWordOpt prev != isWordOpt l.head?)
    && (isWordOpt (l.take kw.length).getLast? != isWordOpt (l.drop kw.length).head?)

/-- Scan for a whole-word occurrence of `kw` anywhere in the remaining
text, tracking the previous character for the boundary test. -/
def wordSearchAux (kw : List Char) (prev : Option Char) : List Char → Bool
  | [] => false
  | c :: cs => wordOccursHere kw prev (c :: cs) || wordSearchAux kw (some c) cs

/-- Embedding of `keyword_regex.search`: does `text` hold a whole-word,
case-insensitive occurrence of `kw`? -/
def keyword_regex_search (kw text : String) : Bool :=
  wordSearchAux kw.data none text.data

/-- Number of start positions in the remaining text carrying a whole-word
occurrence of `kw`. -/
def wordCountAux (kw : List Char) (prev : Option Char) : List Char → Nat
  | [] => 0
  | c :: cs =>
      (if wordOccursHere kw prev (c :: cs) then 1 else 0) + wordCountAux kw (some c) cs

/-- Number of whole-word case-insensitive occurrences of `kw` in `text`. -/
def countWordMatches (kw text : String) : Nat :=
  wordCountAux kw.data none text.data

/-- Sentence terminators of the findall pattern. -/
def isTerminator (c : Char) : Bool := c == '.' || c == '!' || c == '?'

/-- Cut the text into terminator-ended chunks, each including its
terminator; characters after the last terminator are dropped (the findall
pattern requires a closing terminator). -/
def sentenceChunksAux (cur : List Char) : List Char → List (List Char)
  | [] => []
  | c :: cs =>
      if isTerminator c then (cur.reverse ++ [c]) :: sentenceChunksAux [] cs
      else sentenceChunksAux (c :: cur) cs

/-- Terminator-ended sentence chunks of `text`. -/
def sentenceChunks (text : String) : List String :=
  (sentenceChunksAux [] text.data).map String.mk

/-- Whitespace for `str.strip()` (ASCII scope). -/
def isSpaceChar (c : Char) : Bool := c == ' ' || c == '\t' || c == '\n' || c == '\r'

/-- Model of Python `str.strip()`: drop leading and trailing whitespace. -/
def pyStrip (s : String) : String :=
  String.mk (((s.data.dropWhile isSpaceChar).reverse.dropWhile isSpaceChar).reverse)

/-- The `sentences` list built for one keyword: the findall matches (one
per keyword-bearing chunk), each `.strip()`ed. -/
def keywordSentences (kw text : String) : List String :=
  ((sentenceChunks text).filter (fun s => keyword_regex_search kw s)).map pyStrip

/-- Keywords inside the modelled regex scope: nonempty and free of
sentence-terminator characters (so an occurrence never crosses a chunk). -/
def kwInScope (kw : String) : Bool :=
  !kw.isEmpty && kw.data.all (fun c => !isTerminator c)

/-- Python-dict insertion on an association list: replace the value of an
existing key in place, otherwise append at the end. -/
def pyDictInsert {α : Type} (k : String) (v : α) : List (String × α) → List (String × α)
  | [] => [(k, v)]
  | (k₂, v₂) :: rest =>
      if k₂ = k then (k₂, v) :: rest else (k₂, v₂) :: pyDictInsert k v rest

/-- Loop of `find_keywords_in_text`: for each keyword compute its sentence
list and store it only when nonempty. -/
def find_keywords_aux (text : String) : List String → List (String × List String) → List (String × List String)
  | [], acc => acc
  | kw :: rest, acc =>
      let sentences := keywordSentences kw text
      find_keywords_aux text rest (if sentences.isEmpty then acc else pyDictInsert kw sentences acc)

/-- Embedding of `find_keywords_in_text(text, keywords)`: the
keyword → matched-sentences dictionary, holding only keywords that produced
at least one sentence. -/
def find_keywords_in_text (text : String) (keywords : List String) : List (String × List String) :=
  find_keywords_aux text keywords []


/-! ## Keyword-mode page matcher and crawl (`link_finder_streamlit.py`)

Pages are pre-parsed to the elements the script reads: `soup.select
('article p')` becomes a list of paragraphs, each carrying its anchor
hrefs (`soup.select('article p a')`, flattened in document order) and its
`get_text()` result.  A page without an `<article>` simply yields the
empty paragraph list. -/

/-- One `<p>` inside the article: the hrefs of its anchors (with the
`link.get('href', '')` default applied) and its text content. -/
structure Para where
  hrefs : List String
  text : String
deriving DecidableEq

/-- Result of `requests.get(url)` in the keyword-mode script: an exception,
or a response with its status code and parsed paragraphs. -/
inductive LFFetch where
  | exn : LFFetch
  | ok (status : Nat) (paras : List Para) : LFFetch
deriving DecidableEq

/-- The four page outcomes of `LF.fetch_and_search`, mirroring the result
dicts `{'url': ..., 'matched_sentences': ...}` and `{'url': ...,
'reason': ...}`. -/
inductive LFOutcome where
  | matched (url : String) (matched_sentences : List (String × List String)) : LFOutcome
  | containsTarget (url : String) : LFOutcome
  | noKeywords (url : String) : LFOutcome
  | fetchError (url : String) : LFOutcome
deriving DecidableEq

namespace LF

/-- `links_to_check`: hrefs of `article p a` anchors that start with `/`,
resolved with `urljoin` against the page's own `scheme://netloc`. -/
def links_to_check (url : String) (paras : List Para) : List String :=
  let base_url := schemeHost url
  ((paras.flatMap Para.hrefs).filter (fun h => strStartsWith h "/")).map (fun h => urljoin base_url h)

/-- Embedding of the keyword-mode `fetch_and_search(url, target_url,
keywords)`, with the HTTP response supplied by the oracle value `resp`. -/
def fetch_and_search (url target_url : String) (keywords : List String) (resp : LFFetch) : LFOutcome :=
  match resp with
  | .exn => .fetchError url
  | .ok _ paras =>
      if (links_to_check url paras).contains target_url then .containsTarget url
      else
        let text := String.intercalate " " (paras.map Para.text)
        let matched_sentences := find_keywords_in_text text keywords
        if matched_sentences.isEmpty then .noKeywords url else .matched url matched_sentences

/-- Output of the keyword-mode crawl: the pages fetched, in order, and the
`matches` dict `url → matched_sentences` (the `skipped_urls` and
`no_keyword_urls` lists are local to the Python function and not
returned). -/
structure CrawlOut where
  trace : List String
  matchesMap : List (String × List (String × List String))
deriving DecidableEq

/-- Worker loop of the keyword-mode crawl: fetch each page and file a
`matched` outcome into the `matches` dict; other outcomes leave it
untouched. -/
def crawlLoop (resp : String → LFFetch) (target_url : String) (keywords : List String) :
    List String → List (String × List (String × List String)) → CrawlOut
  | [], acc => ⟨[], acc⟩
  | url :: rest, acc =>
      let acc₂ :=
        match fetch_and_search url target_url keywords (resp url) with
        | .matched u ms => pyDictInsert u ms acc
        | _ => acc
      let r := crawlLoop resp target_url keywords rest acc₂
      ⟨url :: r.trace, r.matchesMap⟩

/-- Embedding of the keyword-mode `crawl_and_search(site_urls, target_url,
keywords)`.  Note: no page ceiling is applied in this script. -/
def crawl_and_search (resp : String → LFFetch) (site_urls : List String)
    (target_url : String) (keywords : List String) : CrawlOut :=
  crawlLoop resp target_url keywords site_urls []

/-- The Streamlit button handler's candidate filter (line 99):
`site_urls = [url for url in site_urls if url != target_url]`. -/
def candidate_urls (site_urls : List String) (target_url : String) : List String :=
  site_urls.filter (fun url => url != target_url)

end LF

/-! ## Link-mode page matcher and crawls (`internal_link_finder.py`, `internal_links_mapper.py`)

Both Colab scripts read the first `<article>` of the page and its `<a>`
descendants; the page model keeps exactly that.  The target set
`set(target_urls)` and the dict comprehension `{t: [] for t in
target_urls}` are modelled with first-occurrence deduplication, which is
the dict's key set and order; Python's set iteration order is arbitrary
and none of the properties below depend on it. -/

/-- One `<a>` inside the article: its href (with the `link.get('href',
'')` default applied) and its `get_text(strip=True)` anchor text. -/
structure ATag where
  href : String
  text : String
deriving DecidableEq

/-- Parsed page for the link-mode scripts: the anchor list of the first
`<article>`, or `none` when the page has no article element. -/
structure PageDoc where
  article : Option (List ATag)
deriving DecidableEq

/-- Result of `session.get(url, timeout=TIMEOUT)`: an exception, or a
response with its status code and parsed document.  The scripts never
inspect the status code of a page response. -/
inductive PageFetch where
  | exn : PageFetch
  | ok (status : Nat) (doc : PageDoc) : PageFetch
deriving DecidableEq

/-- First-occurrence deduplication with an accumulator of already seen
keys: the key set and order of a Python dict built from the list. -/
def pyDedupAux : List String → List String → List String
  | [], _ => []
  | a :: l, seen => if seen.contains a then pyDedupAux l seen else a :: pyDedupAux l (a :: seen)

/-- Key list of a Python dict (or set) built from `l`, in first-occurrence
order. -/
def pyDedup (l : List String) : List String :=
  pyDedupAux l []

/-- `all_matches[target_url].extend(matches)`: append `v` to the entry of
`k` (all keys are present by construction, so a missing key is a no-op). -/
def extendAt (k : String) (v : List (String × String)) :
    List (String × List (String × String)) → List (String × List (String × String))
  | [] => []
  | (k₂, v₂) :: rest =>
      if k₂ = k then (k₂, v₂ ++ v) :: rest else (k₂, v₂) :: extendAt k v rest

/-- The merge loop `for target_url, matches in page_results.items():
all_matches[target_url].extend(matches)` of `internal_link_finder.py`. -/
def mergeAll (acc : List (String × List (String × String))) :
    List (String × List (String × String)) → List (String × List (String × String))
  | [] => acc
  | kv :: rest => mergeAll (extendAt kv.1 kv.2 acc) rest

/-- The mapper's merge loop, which extends an entry only when its match
list is nonempty (`if matches:`). -/
def mergeAllIf (acc : List (String × List (String × String))) :
    List (String × List (String × String)) → List (String × List (String × String))
  | [] => acc
  | kv :: rest => mergeAllIf (if kv.2.isEmpty then acc else extendAt kv.1 kv.2 acc) rest

namespace ILF

/-- `MAX_PAGES = 500` of `internal_link_finder.py`. -/
def MAX_PAGES : Nat := 500

/-- Embedding of the link-mode `fetch_and_search(url, target_urls_set)`:
resolve every article anchor against the page URL and collect, per target,
the `(url, link_text)` pairs whose resolved href equals the target
exactly.  An exception or a missing article yields the empty dict; the
status code of a received response is never consulted. -/
def fetch_and_search (url : String) (target_urls_set : List String) (resp : PageFetch) :
    List (String × List (String × String)) :=
  match resp with
  | .exn => []
  | .ok _ doc =>
      match doc.article with
      | none => []
      | some atags =>
          let links := atags.map (fun a => (urljoin url a.href, a.text))
          target_urls_set.map
            (fun t => (t, (links.filter (fun lk => lk.1 == t)).map (fun lk => (url, lk.2))))

/-- Output of a link-mode crawl: whether the truncation warning was
printed, the pages fetched in order, and the `all_matches` dict. -/
structure CrawlOut where
  warned : Bool
  trace : List String
  all_matches : List (String × List (String × String))
deriving DecidableEq

/-- Worker loop of the link-mode crawl: fetch each page and merge its
per-target match lists into `all_matches` with `extend`. -/
def crawlLoop (resp : String → PageFetch) (tset : List String) :
    List String → List (String × List (String × String)) → List String × List (String × List (String × String))
  | [], acc => ([], acc)
  | url :: rest, acc =>
      let page_results := fetch_and_search url tset (resp url)
      let acc₂ := mergeAll acc page_results
      let r := crawlLoop resp tset rest acc₂
      (url :: r.1, r.2)

/-- Embedding of `crawl_and_search(site_urls, target_urls)`: truncate to
`MAX_PAGES` with a warning when the input is longer, then crawl every
remaining page and aggregate per-target matches (initial dict
`{t: [] for t in target_urls}`). -/
def crawl_and_search (resp : String → PageFetch) (site_urls target_urls : List String) : CrawlOut :=
  let pages := if MAX_PAGES < site_urls.length then site_urls.take MAX_PAGES else site_urls
  let tset := pyDedup target_urls
  let init := tset.map (fun t => (t, ([] : List (String × String))))
  let r := crawlLoop resp tset pages init
  ⟨decide (MAX_PAGES < site_urls.length), r.1, r.2⟩

end ILF

namespace ILM

/-- `MAX_PAGES = 1000` of `internal_links_mapper.py`. -/
def MAX_PAGES : Nat := 1000

/-- Embedding of the mapper's `fetch_and_search`, which additionally
returns the `found_any` flag (true when any target collected a match). -/
def fetch_and_search (url : String) (target_urls_set : List String) (resp : PageFetch) :
    List (String × List (String × String)) × Bool :=
  match resp with
  | .exn => ([], false)
  | .ok _ doc =>
      match doc.article with
      | none => ([], false)
      | some atags =>
          let links := atags.map (fun a => (urljoin url a.href, a.text))
          let results := target_urls_set.map
            (fun t => (t, (links.filter (fun lk => lk.1 == t)).map (fun lk => (url, lk.2))))
          (results, results.any (fun r => !r.2.isEmpty))

/-- Worker loop of the mapper's crawl: like `ILF.crawlLoop`, but an entry
is extended only when its match list is nonempty (`if matches:`). -/
def crawlLoop (resp : String → PageFetch) (tset : List String) :
    List String → List (String × List (String × String)) → List String × List (String × List (String × String))
  | [], acc => ([], acc)
  | url :: rest, acc =>
      let page_results := (fetch_and_search url tset (resp url)).1
      let acc₂ := mergeAllIf acc page_results
      let r := crawlLoop resp tset rest acc₂
      (url :: r.1, r.2)

/-- Embedding of the mapper's `crawl_and_search` (ceiling 1000; the
timing and logging counters do not flow into the returned dict and are
omitted). -/
def crawl_and_search (resp : String → PageFetch) (site_urls target_urls : List String) : ILF.CrawlOut :=
  let pages := if MAX_PAGES < site_urls.length then site_urls.take MAX_PAGES else site_urls
  let tset := pyDedup target_urls
  let init := tset.map (fun t => (t, ([] : List (String × String))))
  let r := crawlLoop resp tset pages init
  ⟨decide (MAX_PAGES < site_urls.length), r.1, r.2⟩

end ILM

/-! ## Sitemap resolver (`fetch_sitemap_urls`, shared shape across the scripts)

The Colab scripts fetch each sub-sitemap with `requests.get(...,
timeout=TIMEOUT)`, call `raise_for_status()` (so a non-2xx response raises
and is caught), parse the XML (`ET.fromstring` raises on malformed XML,
also caught), and extract the `<url><loc>` texts; any exception makes that
one sub-sitemap contribute `[]`. -/

/-- Result of one sub-sitemap fetch: an exception, or a response with its
status code and `none` for malformed XML / `some urls` for the parsed
`<url><loc>` entries. -/
inductive SmFetch where
  | exn : SmFetch
  | ok (status : Nat) (parsed : Option (List String)) : SmFetch
deriving DecidableEq

/-- Inner `fetch_sitemap(url)`: the page URLs of one sub-sitemap, or `[]`
on any failure (exception, `raise_for_status` on a 4xx/5xx status, or an
XML parse error). -/
def fetch_sitemap (r : SmFetch) : List String :=
  match r with
  | .exn => []
  | .ok status parsed =>
      if 400 ≤ status ∧ status < 600 then []
      else
        match parsed with
        | none => []
        | some urls => urls

/-- Embedding of `fetch_sitemap_urls(sitemap_urls)`: submit one fetch per
sub-sitemap and extend `site_urls` with each result.  Returns the fetch
trace (one entry per sub-sitemap, in order) and the collected page URLs. -/
def fetch_sitemap_urls (resp : String → SmFetch) : List String → List String × List String
  | [] => ([], [])
  | u :: rest =>
      let urls := fetch_sitemap (resp u)
      let r := fetch_sitemap_urls resp rest
      (u :: r.1, urls ++ r.2)


/-! ## Structural lemmas about the crawls -/

theorem extendAt_map_fst (k : String) (v : List (String × String))
    (m : List (String × List (String × String))) :
    (extendAt k v m).map Prod.fst = m.map Prod.fst := by
  induction m with
  | nil => rfl
  | cons p rest ih =>
      obtain ⟨k₂, v₂⟩ := p
      by_cases h : k₂ = k
      · simp [extendAt, h]
      · simp [extendAt, h, ih]

theorem mergeAll_map_fst (prs : List (String × List (String × String))) :
    ∀ acc, (mergeAll acc prs).map Prod.fst = acc.map Prod.fst := by
  induction prs with
  | nil => intro acc; rfl
  | cons p rest ih => intro acc; rw [mergeAll, ih, extendAt_map_fst]

theorem mergeAllIf_map_fst (prs : List (String × List (String × String))) :
    ∀ acc, (mergeAllIf acc prs).map Prod.fst = acc.map Prod.fst := by
  induction prs with
  | nil => intro acc; rfl
  | cons p rest ih =>
      intro acc
      rw [mergeAllIf, ih]
      by_cases h : p.2.isEmpty
      · rw [if_pos h]
      · rw [if_neg h, extendAt_map_fst]

theorem ilf_crawlLoop_trace (resp : String → PageFetch) (tset : List String) :
    ∀ pages acc, (ILF.crawlLoop resp tset pages acc).1 = pages := by
  intro pages
  induction pages with
  | nil => intro acc; rfl
  | cons u rest ih => intro acc; simp [ILF.crawlLoop, ih]

theorem ilf_crawlLoop_map_fst (resp : String → PageFetch) (tset : List String) :
    ∀ pages acc, ((ILF.crawlLoop resp tset pages acc).2).map Prod.fst = acc.map Prod.fst := by
  intro pages
  induction pages with
  | nil => intro acc; rfl
  | cons u rest ih => intro acc; simp [ILF.crawlLoop, ih, mergeAll_map_fst]

theorem ilf_crawlLoop_skip (resp : String → PageFetch) (tset : List String) (u : String)
    (hu : ILF.fetch_and_search u tset (resp u) = []) :
    ∀ l₁ l₂ acc, (ILF.crawlLoop resp tset (l₁ ++ u :: l₂) acc).2
      = (ILF.crawlLoop resp tset (l₁ ++ l₂) acc).2 := by
  intro l₁
  induction l₁ with
  | nil => intro l₂ acc; simp [ILF.crawlLoop, hu, mergeAll]
  | cons v rest ih => intro l₂ acc; simp [ILF.crawlLoop, ih]

theorem ilf_crawlLoop_const (resp : String → PageFetch) (tset : List String)
    (h : ∀ url, ILF.fetch_and_search url tset (resp url) = []) :
    ∀ pages acc, (ILF.crawlLoop resp tset pages acc).2 = acc := by
  intro pages
  induction pages with
  | nil => intro acc; rfl
  | cons u rest ih => intro acc; simp [ILF.crawlLoop, h u, ih, mergeAll]

theorem ilm_crawlLoop_trace (resp : String → PageFetch) (tset : List String) :
    ∀ pages acc, (ILM.crawlLoop resp tset pages acc).1 = pages := by
  intro pages
  induction pages with
  | nil => intro acc; rfl
  | cons u rest ih => intro acc; simp [ILM.crawlLoop, ih]

theorem ilm_crawlLoop_map_fst (resp : String → PageFetch) (tset : List String) :
    ∀ pages acc, ((ILM.crawlLoop resp tset pages acc).2).map Prod.fst = acc.map Prod.fst := by
  intro pages
  induction pages with
  | nil => intro acc; rfl
  | cons u rest ih => intro acc; simp [ILM.crawlLoop, ih, mergeAllIf_map_fst]

theorem lf_crawlLoop_trace (resp : String → LFFetch) (t : String) (kws : List String) :
    ∀ pages acc, (LF.crawlLoop resp t kws pages acc).trace = pages := by
  intro pages
  induction pages with
  | nil => intro acc; rfl
  | cons u rest ih => intro acc; simp [LF.crawlLoop, ih]

theorem lf_crawlLoop_skip (resp : String → LFFetch) (t : String) (kws : List String) (u : String)
    (hu : LF.fetch_and_search u t kws (resp u) = LFOutcome.fetchError u) :
    ∀ l₁ l₂ acc, (LF.crawlLoop resp t kws (l₁ ++ u :: l₂) acc).matchesMap
      = (LF.crawlLoop resp t kws (l₁ ++ l₂) acc).matchesMap := by
  intro l₁
  induction l₁ with
  | nil => intro l₂ acc; simp [LF.crawlLoop, hu]
  | cons v rest ih => intro l₂ acc; simp [LF.crawlLoop, ih]

theorem fetch_sitemap_urls_trace (resp : String → SmFetch) :
    ∀ ls, (fetch_sitemap_urls resp ls).1 = ls := by
  intro ls
  induction ls with
  | nil => rfl
  | cons u rest ih => simp [fetch_sitemap_urls, ih]

theorem fetch_sitemap_urls_join (resp : String → SmFetch) :
    ∀ ls, (fetch_sitemap_urls resp ls).2 = (ls.map (fun v => fetch_sitemap (resp v))).flatten := by
  intro ls
  induction ls with
  | nil => rfl
  | cons u rest ih => simp [fetch_sitemap_urls, ih]

theorem pyDictInsert_mem {α : Type} (k : String) (v : α) (m : List (String × α)) (p : String × α)
    (h : p ∈ pyDictInsert k v m) : p ∈ m ∨ (p.1 = k ∧ p.2 = v) := by
  induction m with
  | nil =>
      simp only [pyDictInsert, List.mem_singleton] at h
      exact Or.inr (by simp [h])
  | cons q rest ih =>
      obtain ⟨k₂, v₂⟩ := q
      by_cases hk : k₂ = k
      · rw [pyDictInsert, if_pos hk] at h
        rcases List.mem_cons.mp h with h₂ | h₂
        · exact Or.inr (by simp [h₂, hk])
        · exact Or.inl (List.mem_cons_of_mem _ h₂)
      · rw [pyDictInsert, if_neg hk] at h
        rcases List.mem_cons.mp h with h₂ | h₂
        · exact Or.inl (by simp [h₂])
        · rcases ih h₂ with h₃ | h₃
          · exact Or.inl (List.mem_cons_of_mem _ h₃)
          · exact Or.inr h₃

theorem find_keywords_aux_mem (text : String) :
    ∀ (kws : List String) (acc : List (String × List String)) (p : String × List String),
      p ∈ find_keywords_aux text kws acc →
      p ∈ acc ∨ (p.1 ∈ kws ∧ p.2 = keywordSentences p.1 text ∧ p.2 ≠ []) := by
  intro kws
  induction kws with
  | nil => intro acc p h; exact Or.inl h
  | cons kw rest ih =>
      intro acc p h
      simp only [find_keywords_aux] at h
      rcases ih _ p h with h₂ | h₂
      · by_cases he : (keywordSentences kw text).isEmpty
        · rw [if_pos he] at h₂
          exact Or.inl h₂
        · rw [if_neg he] at h₂
          rcases pyDictInsert_mem _ _ _ _ h₂ with h₃ | h₃
          · exact Or.inl h₃
          · refine Or.inr ⟨by simp [h₃.1], by rw [h₃.1, h₃.2], ?_⟩
            rw [h₃.2]
            simpa using he
      · exact Or.inr ⟨List.mem_cons_of_mem _ h₂.1, h₂.2.1, h₂.2.2⟩

/-! ## Claims -/

/-- Claim C1, counterexample: in link mode no exclusion of the target URL
from the crawl input exists — with the target URL itself as the only
candidate page, `ILF.crawl_and_search` fetches the target page and even
records its self-link as a match, contradicting "the target page is never
fetched or matched against itself". -/
theorem C1_counterexample :
    (ILF.crawl_and_search (fun _ => PageFetch.ok 200 ⟨some [⟨"https://x.com/t", "self link"⟩]⟩)
        ["https://x.com/t"] ["https://x.com/t"]).trace = ["https://x.com/t"]
    ∧ (ILF.crawl_and_search (fun _ => PageFetch.ok 200 ⟨some [⟨"https://x.com/t", "self link"⟩]⟩)
        ["https://x.com/t"] ["https://x.com/t"]).all_matches
        = [("https://x.com/t", [("https://x.com/t", "self link")])] :=
  ⟨by decide, by decide⟩

/-- Claim C1, amended: the target-URL exclusion exists only in the
keyword-mode Streamlit app — its button handler filters `site_urls` by
`url != target_url` before crawling, so the target URL is never among the
candidates nor among the pages that crawl fetches.  The link-mode scripts
perform no such exclusion (see the counterexample). -/
theorem C1_amended_thm (resp : String → LFFetch) (site_urls : List String)
    (target_url : String) (keywords : List String) :
    target_url ∉ LF.candidate_urls site_urls target_url
    ∧ (LF.crawl_and_search resp (LF.candidate_urls site_urls target_url) target_url keywords).trace
        = LF.candidate_urls site_urls target_url := by
  constructor
  · intro h
    have h₂ := (List.mem_filter.mp h).2
    simp at h₂
  · exact lf_crawlLoop_trace resp target_url keywords _ []

/-- Claim C2, counterexample: a page whose article paragraph holds a link
with an absolute href equal to the target URL (which `urljoin` resolves to
exactly the target) is not short-circuited: the `startswith('/')` filter
drops it from `links_to_check`, the keyword scan runs, and the outcome is
a keyword match rather than the contains-target skip. -/
theorem C2_counterexample :
    urljoin (schemeHost "https://x.com/a") "https://x.com/t" = "https://x.com/t"
    ∧ LF.fetch_and_search "https://x.com/a" "https://x.com/t" ["target"]
        (LFFetch.ok 200 [⟨["https://x.com/t"], "a target here."⟩])
        = LFOutcome.matched "https://x.com/a" [("target", ["a target here."])] :=
  ⟨by decide, by decide⟩

/-- Claim C2, amended: the short-circuit applies exactly to the
root-relative links the script collects — when the target URL is among the
hrefs of article-paragraph anchors that start with `/`, resolved against
the page's `scheme://netloc`, the outcome is the contains-target skip, and
that outcome is independent of the keyword list (no keyword scan takes
place). -/
theorem C2_amended_thm (url target_url : String) (keywords : List String) (status : Nat)
    (paras : List Para)
    (h : (LF.links_to_check url paras).contains target_url = true) :
    LF.fetch_and_search url target_url keywords (LFFetch.ok status paras)
      = LFOutcome.containsTarget url
    ∧ ∀ keywords₂, LF.fetch_and_search url target_url keywords₂ (LFFetch.ok status paras)
        = LF.fetch_and_search url target_url keywords (LFFetch.ok status paras) := by
  have hm : target_url ∈ LF.links_to_check url paras := by simpa using h
  constructor
  · simp [LF.fetch_and_search, hm]
  · intro keywords₂
    simp [LF.fetch_and_search, hm]

/-- Claim C2, witness for the amended theorem at a concrete page whose
paragraph carries the root-relative href `/t`. -/
theorem C2_witness :
    LF.fetch_and_search "https://x.com/a" "https://x.com/t" ["k"]
        (LFFetch.ok 200 [⟨["/t"], "w."⟩]) = LFOutcome.containsTarget "https://x.com/a" :=
  (C2_amended_thm "https://x.com/a" "https://x.com/t" ["k"] 200 [⟨["/t"], "w."⟩] (by decide)).1

/-- Claim C3, counterexample: a page response with status 404 is not
treated as a fetch failure — its body is parsed and scanned and the
self-described link match is returned, contradicting "its response body is
never scanned for links or keywords". -/
theorem C3_counterexample :
    ILF.fetch_and_search "https://x.com/p" ["https://x.com/t"]
        (PageFetch.ok 404 ⟨some [⟨"https://x.com/t", "read more"⟩]⟩)
      = [("https://x.com/t", [("https://x.com/p", "read more")])] := by
  decide

/-- Claim C3, amended: page fetches never inspect the HTTP status code —
in all three scripts the result of the page matcher is identical for any
two status codes of a received response, and only an exception raised by
the HTTP call (timeout, connection error) produces the empty/error
outcome. -/
theorem C3_amended_thm (url : String) (tset : List String) (s₁ s₂ : Nat) (doc : PageDoc)
    (kurl target_url : String) (keywords : List String) (paras : List Para) :
    ILF.fetch_and_search url tset (PageFetch.ok s₁ doc)
      = ILF.fetch_and_search url tset (PageFetch.ok s₂ doc)
    ∧ ILF.fetch_and_search url tset PageFetch.exn = []
    ∧ ILM.fetch_and_search url tset (PageFetch.ok s₁ doc)
        = ILM.fetch_and_search url tset (PageFetch.ok s₂ doc)
    ∧ ILM.fetch_and_search url tset PageFetch.exn = ([], false)
    ∧ LF.fetch_and_search kurl target_url keywords (LFFetch.ok s₁ paras)
        = LF.fetch_and_search kurl target_url keywords (LFFetch.ok s₂ paras)
    ∧ LF.fetch_and_search kurl target_url keywords LFFetch.exn = LFOutcome.fetchError kurl :=
  ⟨rfl, rfl, rfl, rfl, rfl, rfl⟩

/-- Claim C4, counterexample: the text `"casino casino."` holds two
whole-word occurrences of the keyword, yet `find_keywords_in_text` returns
a single sentence entry for it — findall produces one non-overlapping
match per sentence, not one per occurrence. -/
theorem C4_counterexample :
    countWordMatches "casino" "casino casino." = 2
    ∧ find_keywords_in_text "casino casino." ["casino"]
        = [("casino", ["casino casino."])] :=
  ⟨by decide, by decide⟩

/-- Claim C4, amended: for each keyword the sentence list holds exactly one
entry per terminator-ended sentence chunk containing at least one
whole-word occurrence of the keyword — each entry is the stripped text of
such a chunk, and a text that is a single such chunk yields exactly one
entry however many occurrences it holds; duplicates arise only from
distinct chunks with identical text, and occurrences after the last
terminator are never extracted. -/
theorem C4_amended_thm (text kw : String) (h : kwInScope kw = true) :
    (keywordSentences kw text).length
        = ((sentenceChunks text).filter (fun c => keyword_regex_search kw c)).length
    ∧ (∀ s ∈ keywordSentences kw text,
        ∃ c ∈ sentenceChunks text, keyword_regex_search kw c = true ∧ s = pyStrip c)
    ∧ (∀ c, sentenceChunks text = [c] → keyword_regex_search kw c = true →
        keywordSentences kw text = [pyStrip c]) := by
  refine ⟨by simp [keywordSentences], ?_, ?_⟩
  · intro s hs
    simp only [keywordSentences, List.mem_map, List.mem_filter] at hs
    obtain ⟨c, ⟨hc₁, hc₂⟩, hc₃⟩ := hs
    exact ⟨c, hc₁, hc₂, hc₃.symm⟩
  · intro c h₁ h₂
    simp [keywordSentences, h₁, h₂]

/-- Claim C4, witness for the amended theorem: a single-chunk text holding
the keyword yields exactly its stripped chunk. -/
theorem C4_witness :
    keywordSentences "casino" "one casino here." = [pyStrip "one casino here."] :=
  ((C4_amended_thm "one casino here." "casino" (by decide)).2.2)
    "one casino here." (by decide) (by decide)

/-- 1001 distinct page URLs — longer than either configured ceiling (500
and 1000). -/
def c5urls : List String := (List.range 1001).map (fun n => "p" ++ Nat.repr n)

/-- Claim C5, counterexample: the keyword-mode Streamlit crawl applies no
page ceiling — given 1001 candidate pages, more than either configured
ceiling, it fetches all 1001 of them (and the script emits no warning,
having no truncation branch at all). -/
theorem C5_counterexample :
    (LF.crawl_and_search (fun _ => LFFetch.exn) c5urls "t" ["k"]).trace = c5urls
    ∧ c5urls.length = 1001
    ∧ ILF.MAX_PAGES < 1001 ∧ ILM.MAX_PAGES < 1001 := by
  refine ⟨lf_crawlLoop_trace _ _ _ c5urls [], ?_, by decide, by decide⟩
  simp [c5urls]

/-- Claim C5, amended: the page ceiling exists only in the two Colab
scripts — `internal_link_finder` fetches exactly the first 500 pages in
input order and `internal_links_mapper` the first 1000, each warning
exactly when the input is longer than its ceiling (and hence processing
shorter inputs in full, since `take` is the identity there) — while the
Streamlit crawl fetches every input page with no ceiling and no warning. -/
theorem C5_amended_thm (resp : String → PageFetch) (respLF : String → LFFetch)
    (site_urls target_urls : List String) (target_url : String) (keywords : List String) :
    (ILF.crawl_and_search resp site_urls target_urls).trace = site_urls.take ILF.MAX_PAGES
    ∧ (ILF.crawl_and_search resp site_urls target_urls).warned
        = decide (ILF.MAX_PAGES < site_urls.length)
    ∧ (ILM.crawl_and_search resp site_urls target_urls).trace = site_urls.take ILM.MAX_PAGES
    ∧ (ILM.crawl_and_search resp site_urls target_urls).warned
        = decide (ILM.MAX_PAGES < site_urls.length)
    ∧ (LF.crawl_and_search respLF site_urls target_url keywords).trace = site_urls := by
  refine ⟨?_, rfl, ?_, rfl, lf_crawlLoop_trace respLF target_url keywords site_urls []⟩
  · by_cases hl : ILF.MAX_PAGES < site_urls.length
    · simp [ILF.crawl_and_search, hl, ilf_crawlLoop_trace]
    · simp [ILF.crawl_and_search, hl, ilf_crawlLoop_trace,
        List.take_of_length_le (Nat.le_of_not_lt hl)]
  · by_cases hl : ILM.MAX_PAGES < site_urls.length
    · simp [ILM.crawl_and_search, hl, ilm_crawlLoop_trace]
    · simp [ILM.crawl_and_search, hl, ilm_crawlLoop_trace,
        List.take_of_length_le (Nat.le_of_not_lt hl)]

/-- Claim C6: keyword matching (the compiled `keyword_regex`) is
case-insensitive and whole-word — the text `"SEO"` matches keyword
`"seo"`, the keyword `"se"` does not match `"SEO"`, and end to end only
the whole-word keyword collects the sentence. -/
theorem C6_thm :
    keyword_regex_search "seo" "SEO" = true
    ∧ keyword_regex_search "se" "SEO" = false
    ∧ find_keywords_in_text "We do SEO." ["seo", "se"] = [("seo", ["We do SEO."])] :=
  ⟨by decide, by decide, by decide⟩

/-- Claim C7: a fetch exception is caught inside the page matcher and
becomes a per-page empty/error outcome; the crawl still fetches every
page, the failing page contributes nothing, and the aggregated result is
exactly that of the same crawl without the failing page — in both the
link-mode and the keyword-mode crawl. -/
theorem C7_thm (resp : String → PageFetch) (respLF : String → LFFetch)
    (l₁ l₂ : List String) (u : String) (target_urls tset : List String)
    (target_url : String) (keywords : List String)
    (h₁ : resp u = PageFetch.exn) (h₂ : respLF u = LFFetch.exn)
    (h₃ : (l₁ ++ u :: l₂).length ≤ ILF.MAX_PAGES) :
    ILF.fetch_and_search u tset PageFetch.exn = []
    ∧ LF.fetch_and_search u target_url keywords LFFetch.exn = LFOutcome.fetchError u
    ∧ (ILF.crawl_and_search resp (l₁ ++ u :: l₂) target_urls).trace = l₁ ++ u :: l₂
    ∧ (ILF.crawl_and_search resp (l₁ ++ u :: l₂) target_urls).all_matches
        = (ILF.crawl_and_search resp (l₁ ++ l₂) target_urls).all_matches
    ∧ (LF.crawl_and_search respLF (l₁ ++ u :: l₂) target_url keywords).matchesMap
        = (LF.crawl_and_search respLF (l₁ ++ l₂) target_url keywords).matchesMap := by
  have hn : ¬ (ILF.MAX_PAGES < (l₁ ++ u :: l₂).length) := Nat.not_lt.mpr h₃
  have hn₂ : ¬ (ILF.MAX_PAGES < (l₁ ++ l₂).length) := by
    simp only [List.length_append, List.length_cons] at h₃ ⊢
    omega
  have hu : ILF.fetch_and_search u (pyDedup target_urls) (resp u) = [] := by
    rw [h₁]
    rfl
  have hu₂ : LF.fetch_and_search u target_url keywords (respLF u)
      = LFOutcome.fetchError u := by
    rw [h₂]
    rfl
  refine ⟨rfl, rfl, ?_, ?_, ?_⟩
  · simp only [ILF.crawl_and_search]
    rw [if_neg hn, ilf_crawlLoop_trace]
  · simp only [ILF.crawl_and_search]
    rw [if_neg hn, if_neg hn₂, ilf_crawlLoop_skip resp (pyDedup target_urls) u hu]
  · simp only [LF.crawl_and_search]
    rw [lf_crawlLoop_skip respLF target_url keywords u hu₂]

/-- Page served for the non-failing URLs of the C7 witness crawl. -/
def c7doc : PageDoc := ⟨some [⟨"https://x.com/t", "anchor"⟩]⟩

/-- Link-mode oracle of the C7 witness: the page `pe` raises, all others
respond. -/
def c7resp : String → PageFetch :=
  fun s => if s = "pe" then PageFetch.exn else PageFetch.ok 200 c7doc

/-- Keyword-mode oracle of the C7 witness: the page `pe` raises, all
others respond. -/
def c7respLF : String → LFFetch :=
  fun s => if s = "pe" then LFFetch.exn else LFFetch.ok 200 [⟨["/t"], "w."⟩]

/-- Claim C7, witness: a three-page crawl whose middle page raises. -/
theorem C7_witness :
    ILF.fetch_and_search "pe" ["https://x.com/t"] PageFetch.exn = []
    ∧ LF.fetch_and_search "pe" "https://x.com/t" ["k"] LFFetch.exn = LFOutcome.fetchError "pe"
    ∧ (ILF.crawl_and_search c7resp (["p1"] ++ "pe" :: ["p2"]) ["https://x.com/t"]).trace
        = ["p1"] ++ "pe" :: ["p2"]
    ∧ (ILF.crawl_and_search c7resp (["p1"] ++ "pe" :: ["p2"]) ["https://x.com/t"]).all_matches
        = (ILF.crawl_and_search c7resp (["p1"] ++ ["p2"]) ["https://x.com/t"]).all_matches
    ∧ (LF.crawl_and_search c7respLF (["p1"] ++ "pe" :: ["p2"]) "https://x.com/t" ["k"]).matchesMap
        = (LF.crawl_and_search c7respLF (["p1"] ++ ["p2"]) "https://x.com/t" ["k"]).matchesMap :=
  C7_thm c7resp c7respLF ["p1"] ["p2"] "pe" ["https://x.com/t"] ["https://x.com/t"]
    "https://x.com/t" ["k"] (by decide) (by decide) (by decide)

/-- Claim C8: the sitemap resolver fetches each sub-sitemap exactly once
(the fetch trace is the input list), returns the concatenation of the
per-sitemap URL lists with no deduplication, a failed fetch and a
malformed sub-sitemap each contribute `[]`, and one failing sub-sitemap
leaves the URLs collected from the others unchanged. -/
theorem C8_thm (resp : String → SmFetch) (ls l₁ l₂ : List String) (u : String)
    (h : resp u = SmFetch.exn) :
    (fetch_sitemap_urls resp ls).1 = ls
    ∧ (fetch_sitemap_urls resp ls).2 = (ls.map (fun v => fetch_sitemap (resp v))).flatten
    ∧ fetch_sitemap SmFetch.exn = []
    ∧ (∀ s, fetch_sitemap (SmFetch.ok s none) = [])
    ∧ (fetch_sitemap_urls resp (l₁ ++ u :: l₂)).2
        = (fetch_sitemap_urls resp l₁).2 ++ (fetch_sitemap_urls resp l₂).2 := by
  refine ⟨fetch_sitemap_urls_trace resp ls, fetch_sitemap_urls_join resp ls, rfl, ?_, ?_⟩
  · intro s
    simp only [fetch_sitemap]
    split
    · rfl
    · rfl
  · rw [fetch_sitemap_urls_join, fetch_sitemap_urls_join, fetch_sitemap_urls_join]
    simp [h, fetch_sitemap]

/-- Sub-sitemap oracle of the C8 witness: `bad` raises, all others serve
two page URLs. -/
def c8resp : String → SmFetch :=
  fun s => if s = "bad" then SmFetch.exn else SmFetch.ok 200 (some ["q1", "q2"])

/-- Claim C8, witness: three sub-sitemaps of which the middle one fails. -/
theorem C8_witness :
    (fetch_sitemap_urls c8resp ["s1", "bad", "s2"]).1 = ["s1", "bad", "s2"]
    ∧ (fetch_sitemap_urls c8resp ["s1", "bad", "s2"]).2
        = (["s1", "bad", "s2"].map (fun v => fetch_sitemap (c8resp v))).flatten
    ∧ fetch_sitemap SmFetch.exn = []
    ∧ (∀ s, fetch_sitemap (SmFetch.ok s none) = [])
    ∧ (fetch_sitemap_urls c8resp (["s1"] ++ "bad" :: ["s2"])).2
        = (fetch_sitemap_urls c8resp ["s1"]).2 ++ (fetch_sitemap_urls c8resp ["s2"]).2 :=
  C8_thm c8resp ["s1", "bad", "s2"] ["s1"] ["s2"] "bad" (by decide)

/-- Claim C9: in both link-mode scripts the key list of the returned
`all_matches` dict is exactly the (first-occurrence deduplicated) input
target list, whatever the pages return — and with every fetch failing the
result is precisely each target mapped to the empty list, so targets with
zero matches keep their key. -/
theorem C9_thm (resp : String → PageFetch) (site_urls target_urls : List String) :
    ((ILF.crawl_and_search resp site_urls target_urls).all_matches).map Prod.fst
        = pyDedup target_urls
    ∧ ((ILM.crawl_and_search resp site_urls target_urls).all_matches).map Prod.fst
        = pyDedup target_urls
    ∧ (ILF.crawl_and_search (fun _ => PageFetch.exn) site_urls target_urls).all_matches
        = (pyDedup target_urls).map (fun t => (t, ([] : List (String × String)))) := by
  refine ⟨?_, ?_, ?_⟩
  · simp only [ILF.crawl_and_search, ilf_crawlLoop_map_fst, List.map_map]
    have hid : (Prod.fst ∘ fun t : String => (t, ([] : List (String × String)))) = id := rfl
    rw [hid, List.map_id]
  · simp only [ILM.crawl_and_search, ilm_crawlLoop_map_fst, List.map_map]
    have hid : (Prod.fst ∘ fun t : String => (t, ([] : List (String × String)))) = id := rfl
    rw [hid, List.map_id]
  · have h : ∀ url, ILF.fetch_and_search url (pyDedup target_urls)
        ((fun _ => PageFetch.exn) url) = [] := fun _ => rfl
    simp [ILF.crawl_and_search, ilf_crawlLoop_const _ _ h]

/-- Claim C10: every entry of the keyword → sentences dict returned by
`find_keywords_in_text` has a nonempty sentence list, its key is one of
the input keywords, and its value is exactly that keyword's sentence list
— so a keyword with no matched sentence is absent rather than mapped to
`[]`. -/
theorem C10_thm (text : String) (keywords : List String) (k : String) (v : List String)
    (h : (k, v) ∈ find_keywords_in_text text keywords) :
    v ≠ [] ∧ k ∈ keywords ∧ v = keywordSentences k text := by
  rcases find_keywords_aux_mem text keywords [] (k, v) h with h₂ | h₂
  · simp at h₂
  · exact ⟨h₂.2.2, h₂.1, h₂.2.1⟩

/-- Claim C10, witness at a concrete text and keyword list. -/
theorem C10_witness :
    (["a casino."] : List String) ≠ []
    ∧ "casino" ∈ ["casino", "zzz"]
    ∧ (["a casino."] : List String) = keywordSentences "casino" "a casino." :=
  C10_thm "a casino." ["casino", "zzz"] "casino" ["a casino."] (by decide)
